import Mathlib

/-!
Shallow embedding of `src/services/email.service.js` from the
Bak_Backend-V repository: a transactional-email helper that loads HTML
templates, substitutes `\x7b\x7bkey\x7d\x7d` placeholders, signs short-lived JWT
tokens and dispatches messages through a nodemailer transporter.

External collaborators (file system, nodemailer, jsonwebtoken, the
`UsersModel`/`TripsModel` accessors and `formatDate`) are modelled as
oracles in an `Env` record; each oracle returns `Except Err _` to
represent a JavaScript call that either resolves or throws.  Each
notification function returns the list of dispatch and token-signing
calls it submitted (`CallLog`) together with its `Except` outcome, so
that theorems can speak about how many sends were attempted and whether
an error escaped to the caller.
-/

namespace EmailService

/-- A thrown JavaScript error, reduced to its message. -/
structure Err where
  msg : String
deriving DecidableEq, Repr

/-- Participant record as consumed by `sendTripUpdateNotification`. -/
structure Participant where
  name : String
  email : String
deriving DecidableEq, Repr

/-- Trip record as returned by `TripsModel.tripsById`. -/
structure Trip where
  id_trip : Nat
  title : String
  start_date : String
  end_date : String
  id_creator : Nat
deriving DecidableEq, Repr

/-- User record as returned by `UsersModel.selectById`. -/
structure User where
  id_user : Nat
  name : String
  email : String
deriving DecidableEq, Repr

/-- Participation request consumed by `sendPendingRequestEmail`; `message`
is optional (`none` models a missing field, `some ""` an empty one). -/
structure Participation where
  id_participation : Nat
  id_trip : Nat
  id_user : Nat
  message : Option String
deriving DecidableEq, Repr

/-- Payload passed to `jwt.sign`. -/
inductive JwtPayload where
  | userId (id : Nat)
  | participationAction (id_participation : Nat) (action : String)
deriving DecidableEq, Repr

/-- The argument object of `transporter.sendMail`. -/
structure Mail where
  fromAddr : String
  toAddr : String
  subject : String
  html : String
deriving DecidableEq, Repr

/-- Log of the external calls a notification function submitted:
dispatches (`sendMail`) and token signings (`jwt.sign`, with payload and
`expiresIn` argument). -/
structure CallLog where
  mails : List Mail
  signs : List (JwtPayload × String)
deriving DecidableEq, Repr

/-- The empty call log. -/
def emptyLog : CallLog := ⟨[], []⟩

/-- Environment of external collaborators and configuration, read from
`process.env` and the required modules. `transporter` is `true` when the
nodemailer transporter initialised (the code guards each function with
`if (!transporter) return`). -/
structure Env where
  transporter : Bool
  gmailUser : String
  apiBaseUrl : Option String
  frontendUrl : Option String
  secretKey : Option String
  loadTemplate : String → Except Err String
  sign : JwtPayload → Option String → String → Except Err String
  sendMail : Mail → Except Err Unit
  usersSelectById : Nat → Except Err (Option User)
  tripsById : Nat → Except Err (Option Trip)
  formatDate : String → String

/-! ### Global literal substitution (`String.prototype.replace` with a
`/.../g` literal pattern), modelled on `List Char` with fuel so that all
definitions reduce by kernel evaluation. -/

/-- Does `s` start with `tok`?  (`tok` is a prefix of `s`.) -/
def startsWith : List Char → List Char → Bool
  | [], _ => true
  | _ :: _, [] => false
  | a :: tok, b :: s => a == b && startsWith tok s

/-- Does `tok` occur (as a contiguous run) anywhere in `s`? -/
def containsTok (tok : List Char) : List Char → Bool
  | [] => tok.isEmpty
  | c :: rest => startsWith tok (c :: rest) || containsTok tok rest

/-- The dollar sign, the escape character of JavaScript replacement
strings. -/
def dollarChar : Char := '$'

/-- The ampersand: `$&` inserts the matched substring. -/
def ampChar : Char := '&'

/-- The backquote (U+0060): a dollar followed by it inserts the portion
of the subject string preceding the match. -/
def backquoteChar : Char := Char.ofNat 96

/-- The apostrophe (U+0027): a dollar followed by it inserts the portion
of the subject string following the match. -/
def quoteChar : Char := Char.ofNat 39

/-- JavaScript `GetSubstitution` for a string replacement and a regex
with no capture groups: in the replacement text, `$$` inserts a dollar,
`$&` the matched substring, a dollar-backquote pair the part of the
subject before the match, a dollar-apostrophe pair the part after it;
any other dollar (including `$n` for the group-free patterns used here)
is literal. -/
def expandDollar (matched before after : List Char) : List Char → List Char
  | [] => []
  | [c] => [c]
  | c :: d :: rest2 =>
    if c = dollarChar then
      if d = dollarChar then dollarChar :: expandDollar matched before after rest2
      else if d = ampChar then matched ++ expandDollar matched before after rest2
      else if d = backquoteChar then before ++ expandDollar matched before after rest2
      else if d = quoteChar then after ++ expandDollar matched before after rest2
      else c :: expandDollar matched before after (d :: rest2)
    else
      c :: expandDollar matched before after (d :: rest2)

/-- Is a replacement value free of dollar signs (and hence inserted
verbatim by JavaScript)? -/
def noDollar : List Char → Bool
  | [] => true
  | c :: rest => if c = dollarChar then false else noDollar rest

/-- Fuelled global replacement, the semantics of
`subject.replace(/tok/g, val)`: scan left to right, and at each match of
`tok` insert the JavaScript expansion of `val` (`expandDollar`), with
`pre` the portion of the original subject already scanned (the text
before the current match). -/
def replaceL (tok val : List Char) : Nat → List Char → List Char → List Char
  | _, _, [] => []
  | 0, _, s => s
  | Nat.succ fuel, pre, c :: rest =>
    if startsWith tok (c :: rest) && !tok.isEmpty then
      expandDollar tok pre (List.drop (tok.length - 1) rest) val
        ++ replaceL tok val fuel (pre ++ tok) (List.drop (tok.length - 1) rest)
    else
      c :: replaceL tok val fuel (pre ++ [c]) rest

/-- Fuelled split of `s` at the occurrences of `tok` (leftmost, greedy):
the segments between consecutive matches. -/
def splitL (tok : List Char) : Nat → List Char → List (List Char)
  | _, [] => [[]]
  | 0, s => [s]
  | Nat.succ fuel, c :: rest =>
    if startsWith tok (c :: rest) && !tok.isEmpty then
      [] :: splitL tok fuel (List.drop (tok.length - 1) rest)
    else
      match splitL tok fuel rest with
      | [] => [[c]]
      | seg :: segs => (c :: seg) :: segs

/-- Join segments, interleaving the separator `sep`. -/
def joinSep (sep : List Char) : List (List Char) → List Char
  | [] => []
  | [seg] => seg
  | seg :: seg2 :: segs => seg ++ sep ++ joinSep sep (seg2 :: segs)

/-- Join the token-free segments of a subject, inserting at each match
site the JavaScript expansion of `val` for that match: `pre` is the part
of the original subject before the current segment, so the match after
segment `g` has `pre ++ g` before it and the remaining segments rejoined
with `tok` after it. -/
def joinExpand (tok val : List Char) : List Char → List (List Char) → List Char
  | _, [] => []
  | _, [g] => g
  | pre, g :: g2 :: gs =>
    g ++ expandDollar tok (pre ++ g) (joinSep tok (g2 :: gs)) val
      ++ joinExpand tok val (pre ++ g ++ tok) (g2 :: gs)

/-- Global replacement of every occurrence of `tok` in `s` by the
JavaScript expansion of `val`. -/
def replaceAllL (tok val s : List Char) : List Char :=
  replaceL tok val s.length [] s

/-- Split at every occurrence of `tok`. -/
def splitTok (tok s : List Char) : List (List Char) :=
  splitL tok s.length s

/-- String-level global replacement, the semantics of
`text.replace(/tok/g, val)` for a literal, capture-group-free pattern
`tok` and a string replacement `val`, JavaScript dollar patterns
included. -/
def replaceAllS (tok val s : String) : String :=
  String.mk (replaceAllL tok.data val.data s.data)

/-- The `\x7b\x7bkey\x7d\x7d` placeholder token for a key. -/
def tokenOf (k : String) : String := "\x7b\x7b" ++ k ++ "\x7d\x7d"

/-- The renderer used by every mail-building site of the file: a chain of
global `replace` calls, applied sequentially in the given key order. -/
def renderChain (tmpl : String) (m : List (String × String)) : String :=
  m.foldl (fun acc kv => replaceAllS (tokenOf kv.1) kv.2 acc) tmpl

/-- JavaScript `m || fallback` on an optional string: the fallback is
used when the value is absent or empty (both falsy). -/
def strOrElse (m : Option String) (fallback : String) : String :=
  match m with
  | none => fallback
  | some s => if s = "" then fallback else s

/-- `r.status === fulfilled` for a settled dispatch attempt. -/
def isFulfilled : Except Err Unit → Bool
  | .ok _ => true
  | .error _ => false

/-! ### 1. `sendVerifyEmailTo` -/

/-- The mail built by `sendVerifyEmailTo`: the rendered `verify.html`
template with the backend verification link substituted. -/
def verifyMail (env : Env) (userData : User) (htmlTemplate token : String) : Mail :=
  let apiBaseUrl := env.apiBaseUrl.getD "http://localhost:3000"
  let verificationLink := apiBaseUrl ++ "/api/auth/verify?token=" ++ token
  { fromAddr := env.gmailUser
    toAddr := userData.email
    subject := "Verificación de email - Viajes Compartidos"
    html := replaceAllS (tokenOf "verificationLink") verificationLink htmlTemplate }

/-- Body of the `try` block of `sendVerifyEmailTo`: load `verify.html`,
sign a 1-day token carrying the user's id, build the backend
verification link, render, dispatch one mail to the user. -/
def sendVerifyEmailToBody (env : Env) (userData : User) :
    CallLog × Except Err Unit :=
  match env.loadTemplate "verify.html" with
  | .error e => (emptyLog, .error e)
  | .ok htmlTemplate =>
    match env.sign (.userId userData.id_user) env.secretKey "1d" with
    | .error e => (⟨[], [(.userId userData.id_user, "1d")]⟩, .error e)
    | .ok token =>
      let mail := verifyMail env userData htmlTemplate token
      (⟨[mail], [(.userId userData.id_user, "1d")]⟩,
       match env.sendMail mail with
       | .error e => .error e
       | .ok _ => .ok ())

/-- `sendVerifyEmailTo`: guard on the transporter, then the `try` body;
the `catch` logs and swallows every error. -/
def sendVerifyEmailTo (env : Env) (userData : User) :
    CallLog × Except Err Unit :=
  if env.transporter then
    match sendVerifyEmailToBody env userData with
    | (log, .error _) => (log, .ok ())
    | (log, .ok v) => (log, .ok v)
  else (emptyLog, .ok ())

/-! ### 2. `sendTripUpdateNotification` -/

/-- The per-recipient mail built inside the `map` of
`sendTripUpdateNotification`. -/
def tripUpdateMail (env : Env) (oldTrip updatedTrip : Trip)
    (htmlTemplate : String) (participant : Participant) : Mail :=
  let frontendUrl := env.frontendUrl.getD "https://app-viajes.netlify.app"
  let tripDetailsUrl := frontendUrl ++ "/trips/" ++ toString updatedTrip.id_trip
  { fromAddr := "Viajes Compartidos <" ++ env.gmailUser ++ ">"
    toAddr := participant.email
    subject := "⚠️ Cambio de fechas: " ++ updatedTrip.title
    html := renderChain htmlTemplate
      [("participantName", participant.name),
       ("tripTitle", updatedTrip.title),
       ("newStartDate", env.formatDate updatedTrip.start_date),
       ("newEndDate", env.formatDate updatedTrip.end_date),
       ("oldStartDate", env.formatDate oldTrip.start_date),
       ("oldEndDate", env.formatDate oldTrip.end_date),
       ("tripDetailsUrl", tripDetailsUrl)] }

/-- Body of the `try` block of `sendTripUpdateNotification`: load the
template, filter out the creator, early return when nobody is left,
otherwise submit one dispatch per remaining recipient, wait for all of
them to settle (`Promise.allSettled`) and tally the outcomes. -/
def sendTripUpdateNotificationBody (env : Env) (participants : List Participant)
    (oldTrip updatedTrip : Trip) (creatorEmail : String) :
    CallLog × Except Err (Option (Nat × Nat × Nat)) :=
  match env.loadTemplate "datesModified.html" with
  | .error e => (emptyLog, .error e)
  | .ok htmlTemplate =>
    let recipientsToNotify := participants.filter fun p => p.email != creatorEmail
    if recipientsToNotify.length = 0 then (emptyLog, .ok none)
    else
      let mails := recipientsToNotify.map (tripUpdateMail env oldTrip updatedTrip htmlTemplate)
      let results := mails.map env.sendMail
      let successful := (results.filter isFulfilled).length
      let failedL := results.filter fun r => !(isFulfilled r)
      (⟨mails, []⟩, .ok (some (successful, failedL.length, results.length)))

/-- `sendTripUpdateNotification`: guard (`!transporter ||
participants.length === 0`), then the `try` body; the `catch` logs and
swallows, returning `undefined` (`none`).  The returned triple is
`(sent, failed, total)`. -/
def sendTripUpdateNotification (env : Env) (participants : List Participant)
    (oldTrip updatedTrip : Trip) (creatorEmail : String) :
    CallLog × Except Err (Option (Nat × Nat × Nat)) :=
  if env.transporter = false ∨ participants.length = 0 then (emptyLog, .ok none)
  else
    match sendTripUpdateNotificationBody env participants oldTrip updatedTrip creatorEmail with
    | (log, .error _) => (log, .ok none)
    | (log, .ok v) => (log, .ok v)

/-! ### 3. `sendPendingRequestEmail` -/

/-- The single mail built by `sendPendingRequestEmail`: the rendered
`pendingRequest.html` template, addressed to the trip's creator, with
the accept/reject action links substituted. -/
def pendingRequestMail (env : Env) (newParticipation : Participation)
    (participant creator : User) (trip : Trip)
    (tmpl acceptToken rejectToken : String) : Mail :=
  let frontendUrl := env.frontendUrl.getD "http://localhost:3000"
  let apiBaseUrl := env.apiBaseUrl.getD "http://localhost:3000"
  let idp := newParticipation.id_participation
  { fromAddr := env.gmailUser
    toAddr := creator.email
    subject := "📨 " ++ participant.name ++ " solicita unirse a tu viaje"
    html := renderChain tmpl
      [("creatorName", creator.name),
       ("userName", participant.name),
       ("tripTitle", trip.title),
       ("startDate", env.formatDate trip.start_date),
       ("endDate", env.formatDate trip.end_date),
       ("userMessage", strOrElse newParticipation.message "Sin mensaje"),
       ("appUrl", frontendUrl ++ "/requests"),
       ("accepted", apiBaseUrl ++ "/api/participants/" ++ toString idp
          ++ "/action?token=" ++ acceptToken),
       ("rejected", apiBaseUrl ++ "/api/participants/" ++ toString idp
          ++ "/action?token=" ++ rejectToken)] }

/-- The two `jwt.sign` calls of `sendPendingRequestEmail`, in order. -/
def pendingSigns (newParticipation : Participation) : List (JwtPayload × String) :=
  [(JwtPayload.participationAction newParticipation.id_participation "accepted", "7d"),
   (JwtPayload.participationAction newParticipation.id_participation "rejected", "7d")]

/-- Body of the `try` block of `sendPendingRequestEmail`: resolve the
requesting user, the trip and the trip's creator (aborting with
`undefined` when any is missing), load the template, sign the two 7-day
action tokens, render one mail to the creator with both action links,
dispatch it. -/
def sendPendingRequestEmailBody (env : Env) (newParticipation : Participation) :
    CallLog × Except Err (Option Unit) :=
  match env.usersSelectById newParticipation.id_user with
  | .error e => (emptyLog, .error e)
  | .ok participantOpt =>
    match env.tripsById newParticipation.id_trip with
    | .error e => (emptyLog, .error e)
    | .ok tripOpt =>
      match participantOpt, tripOpt with
      | none, _ => (emptyLog, .ok none)
      | some _, none => (emptyLog, .ok none)
      | some participant, some trip =>
        match env.usersSelectById trip.id_creator with
        | .error e => (emptyLog, .error e)
        | .ok none => (emptyLog, .ok none)
        | .ok (some creator) =>
          match env.loadTemplate "pendingRequest.html" with
          | .error e => (emptyLog, .error e)
          | .ok tmpl =>
            let idp := newParticipation.id_participation
            match env.sign (.participationAction idp "accepted") env.secretKey "7d" with
            | .error e => (⟨[], [(.participationAction idp "accepted", "7d")]⟩, .error e)
            | .ok acceptToken =>
              match env.sign (.participationAction idp "rejected") env.secretKey "7d" with
              | .error e =>
                (⟨[], [(.participationAction idp "accepted", "7d"),
                       (.participationAction idp "rejected", "7d")]⟩, .error e)
              | .ok rejectToken =>
                let mail := pendingRequestMail env newParticipation participant creator trip
                  tmpl acceptToken rejectToken
                (⟨[mail], pendingSigns newParticipation⟩,
                 match env.sendMail mail with
                 | .error e => .error e
                 | .ok r => .ok (some r))

/-- `sendPendingRequestEmail`: guard on the transporter, then the `try`
body; the `catch` logs and re-raises the error. -/
def sendPendingRequestEmail (env : Env) (newParticipation : Participation) :
    CallLog × Except Err (Option Unit) :=
  if env.transporter then
    match sendPendingRequestEmailBody env newParticipation with
    | (log, .error e) => (log, .error e)
    | (log, .ok v) => (log, .ok v)
  else (emptyLog, .ok none)

/-! ### Concrete test fixtures (used by witness and counterexample
theorems) -/

/-- A fully working environment: transporter up, every oracle succeeds. -/
def envA : Env where
  transporter := true
  gmailUser := "app@gmail.com"
  apiBaseUrl := none
  frontendUrl := none
  secretKey := some "secret"
  loadTemplate := fun _ =>
    .ok "Hola \x7b\x7bparticipantName\x7d\x7d \x7b\x7bverificationLink\x7d\x7d \x7b\x7buserMessage\x7d\x7d"
  sign := fun _ _ _ => .ok "TOK"
  sendMail := fun _ => .ok ()
  usersSelectById := fun i => .ok (some ⟨i, "User" ++ toString i, "u" ++ toString i ++ "@x.com"⟩)
  tripsById := fun i => .ok (some ⟨i, "Trip", "2025-01-01", "2025-01-02", 7⟩)
  formatDate := fun s => s

/-- Like `envA` but the dispatch to `b@x.com` is rejected by the provider. -/
def envB : Env :=
  { envA with sendMail := fun m => if m.toAddr = "b@x.com" then .error ⟨"smtp down"⟩ else .ok () }

/-- Like `envA` but the transporter failed to initialise. -/
def envOff : Env := { envA with transporter := false }

/-- Like `envA` but every template read throws. -/
def envErr : Env := { envA with loadTemplate := fun _ => .error ⟨"ENOENT"⟩ }

/-- Like `envA` but every user lookup resolves to no record. -/
def envNoUser : Env := { envA with usersSelectById := fun _ => .ok none }

/-- Like `envA` but every trip lookup resolves to no record. -/
def envNoTrip : Env := { envA with tripsById := fun _ => .ok none }

/-- Like `envA` but only user 3 exists, so the creator lookup (id 7)
resolves to no record. -/
def envNoCreator : Env :=
  { envA with usersSelectById := fun i =>
      if i = 3 then Except.ok (some ⟨3, "User3", "u3@x.com"⟩) else Except.ok none }

/-- The trip creator as a participant. -/
def crP : Participant := ⟨"Creator", "c@x.com"⟩

/-- Participant A. -/
def aP : Participant := ⟨"Alice", "a@x.com"⟩

/-- Participant B. -/
def bP : Participant := ⟨"Bob", "b@x.com"⟩

/-- The trip before the date change. -/
def oldT : Trip := ⟨1, "Trip", "2025-01-01", "2025-01-05", 7⟩

/-- The trip after the date change. -/
def newT : Trip := ⟨1, "Trip", "2025-02-01", "2025-02-05", 7⟩

/-- A user fixture. -/
def uA : User := ⟨3, "Alice", "a@x.com"⟩

/-- A participation-request fixture with no free-text message. -/
def pReq : Participation := ⟨11, 1, 3, none⟩

/-! ### Structural lemmas about global replacement -/

theorem startsWith_drop (tok : List Char) :
    ∀ s, startsWith tok s = true → tok ++ List.drop tok.length s = s := by
  induction tok with
  | nil => intro s _; simp
  | cons a t ih =>
    intro s h
    cases s with
    | nil => simp [startsWith] at h
    | cons b s' =>
      simp only [startsWith, Bool.and_eq_true, beq_iff_eq] at h
      obtain ⟨rfl, h2⟩ := h
      have h3 := ih s' h2
      simpa [List.cons_append, List.drop_succ_cons] using h3

theorem startsWith_append (tok : List Char) :
    ∀ s u, startsWith tok s = true → startsWith tok (s ++ u) = true := by
  induction tok with
  | nil => intro s u _; cases s <;> simp [startsWith]
  | cons a t ih =>
    intro s u h
    cases s with
    | nil => simp [startsWith] at h
    | cons b s' =>
      simp only [startsWith, Bool.and_eq_true, beq_iff_eq] at h
      simp only [List.cons_append, startsWith, Bool.and_eq_true, beq_iff_eq]
      exact ⟨h.1, ih s' u h.2⟩

theorem startsWith_cons_drop {tok : List Char} {c : Char} {rest : List Char}
    (hsw : startsWith tok (c :: rest) = true) (hne : tok ≠ []) :
    tok ++ List.drop (tok.length - 1) rest = c :: rest := by
  cases tok with
  | nil => exact absurd rfl hne
  | cons a t =>
    simp only [startsWith, Bool.and_eq_true, beq_iff_eq] at hsw
    obtain ⟨rfl, h2⟩ := hsw
    have h3 := startsWith_drop t rest h2
    simp only [List.length_cons, Nat.add_sub_cancel, List.cons_append, h3]

theorem splitL_ne_nil (tok : List Char) : ∀ fuel s, splitL tok fuel s ≠ [] := by
  intro fuel s
  cases fuel with
  | zero => cases s <;> simp [splitL]
  | succ f =>
    cases s with
    | nil => simp [splitL]
    | cons c rest =>
      simp only [splitL]
      split
      · simp
      · split <;> simp

theorem splitL_join (tok : List Char) :
    ∀ fuel s, s.length ≤ fuel → joinSep tok (splitL tok fuel s) = s := by
  intro fuel
  induction fuel with
  | zero =>
    intro s hs
    have hsnil : s = [] := List.length_eq_zero.mp (Nat.le_zero.mp hs)
    subst hsnil
    simp [splitL, joinSep]
  | succ fuel ih =>
    intro s hs
    cases s with
    | nil => simp [splitL, joinSep]
    | cons c rest =>
      have hrlen : rest.length ≤ fuel := Nat.succ_le_succ_iff.mp (by simpa using hs)
      simp only [splitL]
      by_cases hg : (startsWith tok (c :: rest) && !tok.isEmpty) = true
      · rw [if_pos hg]
        rw [Bool.and_eq_true] at hg
        obtain ⟨hsw, hne'⟩ := hg
        have hne : tok ≠ [] := by
          intro h; subst h; simp at hne'
        have hlen : (List.drop (tok.length - 1) rest).length ≤ fuel := by
          calc (List.drop (tok.length - 1) rest).length ≤ rest.length := by
                simp [List.length_drop]
          _ ≤ fuel := hrlen
        have hrec := ih (List.drop (tok.length - 1) rest) hlen
        cases hsp : splitL tok fuel (List.drop (tok.length - 1) rest) with
        | nil => exact absurd hsp (splitL_ne_nil tok fuel _)
        | cons a L =>
          rw [hsp] at hrec
          rw [joinSep, hrec]
          simpa using startsWith_cons_drop hsw hne
      · rw [if_neg hg]
        have hrec := ih rest hrlen
        cases hsp : splitL tok fuel rest with
        | nil => exact absurd hsp (splitL_ne_nil tok fuel rest)
        | cons seg segs =>
          rw [hsp] at hrec
          cases segs with
          | nil =>
            simp only [joinSep] at hrec ⊢
            rw [hrec]
          | cons s2 ss =>
            simp only [joinSep] at hrec ⊢
            simp only [List.append_assoc] at hrec
            simp only [List.cons_append, List.append_assoc]
            rw [hrec]

theorem replaceL_eq_joinExpand (tok val : List Char) :
    ∀ fuel s pre, s.length ≤ fuel →
      replaceL tok val fuel pre s = joinExpand tok val pre (splitL tok fuel s) := by
  intro fuel
  induction fuel with
  | zero =>
    intro s pre hs
    have hsnil : s = [] := List.length_eq_zero.mp (Nat.le_zero.mp hs)
    subst hsnil
    simp [replaceL, splitL, joinExpand]
  | succ fuel ih =>
    intro s pre hs
    cases s with
    | nil => simp [replaceL, splitL, joinExpand]
    | cons c rest =>
      have hrlen : rest.length ≤ fuel := Nat.succ_le_succ_iff.mp (by simpa using hs)
      simp only [replaceL, splitL]
      by_cases hg : (startsWith tok (c :: rest) && !tok.isEmpty) = true
      · rw [if_pos hg, if_pos hg]
        have hlen : (List.drop (tok.length - 1) rest).length ≤ fuel := by
          calc (List.drop (tok.length - 1) rest).length ≤ rest.length := by
                simp [List.length_drop]
          _ ≤ fuel := hrlen
        have hrec := ih (List.drop (tok.length - 1) rest) (pre ++ tok) hlen
        have hj := splitL_join tok fuel (List.drop (tok.length - 1) rest) hlen
        cases hsp : splitL tok fuel (List.drop (tok.length - 1) rest) with
        | nil => exact absurd hsp (splitL_ne_nil tok fuel _)
        | cons g gs =>
          rw [hsp] at hrec hj
          rw [hrec]
          simp only [joinExpand, hj, List.append_nil, List.nil_append]
      · rw [if_neg hg, if_neg hg]
        have hrec := ih rest (pre ++ [c]) hrlen
        cases hsp : splitL tok fuel rest with
        | nil => exact absurd hsp (splitL_ne_nil tok fuel rest)
        | cons g gs =>
          rw [hsp] at hrec
          rw [hrec]
          cases gs with
          | nil => simp [joinExpand]
          | cons g2 gs2 =>
            simp only [joinExpand]
            simp [List.cons_append, List.append_assoc, List.singleton_append]

theorem expandDollar_of_noDollar (matched before after : List Char) :
    ∀ val, noDollar val = true → expandDollar matched before after val = val := by
  intro val
  induction val with
  | nil => intro _; rfl
  | cons c rest ih =>
    intro h
    by_cases hc : c = dollarChar
    · rw [noDollar, if_pos hc] at h
      exact absurd h (by decide)
    · rw [noDollar, if_neg hc] at h
      cases rest with
      | nil => rfl
      | cons d rest2 =>
        rw [expandDollar, if_neg hc]
        rw [ih h]

theorem joinExpand_of_noDollar (tok val : List Char) (h : noDollar val = true) :
    ∀ gs pre, joinExpand tok val pre gs = joinSep val gs := by
  intro gs
  induction gs with
  | nil => intro pre; rfl
  | cons g rest ih =>
    intro pre
    cases rest with
    | nil => rfl
    | cons g2 rest2 =>
      simp only [joinExpand, joinSep]
      rw [expandDollar_of_noDollar tok (pre ++ g) (joinSep tok (g2 :: rest2)) val h,
        ih (pre ++ g ++ tok)]

theorem splitL_contains_false {tok : List Char} (hne : tok ≠ []) :
    ∀ fuel s, s.length ≤ fuel →
      ∀ seg ∈ splitL tok fuel s, containsTok tok seg = false := by
  have hbase : containsTok tok [] = false := by
    cases tok with
    | nil => exact absurd rfl hne
    | cons a t => rfl
  intro fuel
  induction fuel with
  | zero =>
    intro s hs seg hseg
    have hsnil : s = [] := List.length_eq_zero.mp (Nat.le_zero.mp hs)
    subst hsnil
    simp [splitL] at hseg
    subst hseg
    exact hbase
  | succ fuel ih =>
    intro s hs seg hseg
    cases s with
    | nil =>
      simp [splitL] at hseg
      subst hseg
      exact hbase
    | cons c rest =>
      have hrlen : rest.length ≤ fuel := Nat.succ_le_succ_iff.mp (by simpa using hs)
      simp only [splitL] at hseg
      by_cases hg : (startsWith tok (c :: rest) && !tok.isEmpty) = true
      · rw [if_pos hg] at hseg
        rcases List.mem_cons.mp hseg with h | h
        · subst h; exact hbase
        · have hlen : (List.drop (tok.length - 1) rest).length ≤ fuel := by
            calc (List.drop (tok.length - 1) rest).length ≤ rest.length := by
                  simp [List.length_drop]
            _ ≤ fuel := hrlen
          exact ih _ hlen seg h
      · rw [if_neg hg] at hseg
        have hsw : startsWith tok (c :: rest) = false := by
          rcases Bool.eq_false_or_eq_true (startsWith tok (c :: rest)) with h | h
          · exfalso
            apply hg
            rw [Bool.and_eq_true]
            refine ⟨h, ?_⟩
            cases tok with
            | nil => exact absurd rfl hne
            | cons a t => rfl
          · exact h
        cases hsp : splitL tok fuel rest with
        | nil => exact absurd hsp (splitL_ne_nil tok fuel rest)
        | cons seg0 segs =>
          rw [hsp] at hseg
          rcases List.mem_cons.mp hseg with h | h
          · subst h
            have h0 : containsTok tok seg0 = false :=
              ih rest hrlen seg0 (by rw [hsp]; exact List.mem_cons_self _ _)
            rw [containsTok, h0, Bool.or_false]
            rcases Bool.eq_false_or_eq_true (startsWith tok (c :: seg0)) with hb | hb
            · exfalso
              have hj := splitL_join tok fuel rest hrlen
              rw [hsp] at hj
              cases segs with
              | nil =>
                simp only [joinSep] at hj
                subst hj
                rw [hsw] at hb
                exact Bool.false_ne_true hb
              | cons s2 ss =>
                simp only [joinSep] at hj
                have hb2 : startsWith tok ((c :: seg0) ++ (tok ++ joinSep tok (s2 :: ss))) = true :=
                  startsWith_append tok (c :: seg0) _ hb
                have hceq : (c :: seg0) ++ (tok ++ joinSep tok (s2 :: ss)) = c :: rest := by
                  simp only [List.cons_append, List.append_assoc]
                  simp only [List.append_assoc] at hj
                  rw [hj]
                rw [hceq, hsw] at hb2
                exact Bool.false_ne_true hb2
            · exact hb
          · exact ih rest hrlen seg (by rw [hsp]; exact List.mem_cons_of_mem _ h)

theorem replaceL_of_not_contains (tok val : List Char) :
    ∀ fuel s pre, containsTok tok s = false → replaceL tok val fuel pre s = s := by
  intro fuel
  induction fuel with
  | zero => intro s pre _; cases s <;> simp [replaceL]
  | succ fuel ih =>
    intro s pre h
    cases s with
    | nil => simp [replaceL]
    | cons c rest =>
      rw [containsTok, Bool.or_eq_false_iff] at h
      rw [replaceL, if_neg]
      · rw [ih rest (pre ++ [c]) h.2]
      · simp [h.1]

theorem splitTok_join (tok s : List Char) : joinSep tok (splitTok tok s) = s :=
  splitL_join tok s.length s (Nat.le_refl _)

theorem replaceAllL_eq_joinExpand (tok val s : List Char) :
    replaceAllL tok val s = joinExpand tok val [] (splitTok tok s) :=
  replaceL_eq_joinExpand tok val s.length s [] (Nat.le_refl _)

theorem replaceAllL_of_noDollar (tok val s : List Char) (h : noDollar val = true) :
    replaceAllL tok val s = joinSep val (splitTok tok s) :=
  (replaceAllL_eq_joinExpand tok val s).trans
    (joinExpand_of_noDollar tok val h (splitTok tok s) [])

theorem splitTok_contains_false {tok : List Char} (hne : tok ≠ []) (s : List Char) :
    ∀ seg ∈ splitTok tok s, containsTok tok seg = false :=
  splitL_contains_false hne s.length s (Nat.le_refl _)

theorem replaceAllL_of_not_contains (tok val s : List Char)
    (h : containsTok tok s = false) : replaceAllL tok val s = s :=
  replaceL_of_not_contains tok val s.length s [] h

/-! ### Shape lemmas for the three notification functions -/

theorem sendVerifyEmailTo_log (env : Env) (u : User) (ht : env.transporter = true) :
    (sendVerifyEmailTo env u).1 = (sendVerifyEmailToBody env u).1 := by
  rcases hb : sendVerifyEmailToBody env u with ⟨log, r⟩
  cases r <;> simp [sendVerifyEmailTo, ht, hb]

theorem sendVerifyEmailTo_snd_ok (env : Env) (u : User) :
    (sendVerifyEmailTo env u).2 = Except.ok () := by
  by_cases ht : env.transporter = true
  · rcases hb : sendVerifyEmailToBody env u with ⟨log, r⟩
    cases r with
    | error e => simp [sendVerifyEmailTo, ht, hb]
    | ok v => cases v; simp [sendVerifyEmailTo, ht, hb]
  · simp [sendVerifyEmailTo, ht]

theorem sendTripUpdateNotification_snd_ok (env : Env) (ps : List Participant)
    (oT nT : Trip) (c : String) (e : Err) :
    (sendTripUpdateNotification env ps oT nT c).2 ≠ Except.error e := by
  by_cases hc : (env.transporter = false ∨ ps = [])
  · simp [sendTripUpdateNotification, hc]
  · rcases hb : sendTripUpdateNotificationBody env ps oT nT c with ⟨log, r⟩
    cases r <;> simp [sendTripUpdateNotification, hc, hb]

theorem sendPendingRequestEmail_eq_body (env : Env) (p : Participation)
    (ht : env.transporter = true) :
    sendPendingRequestEmail env p = sendPendingRequestEmailBody env p := by
  rcases hb : sendPendingRequestEmailBody env p with ⟨log, r⟩
  cases r <;> simp [sendPendingRequestEmail, ht, hb]

theorem pending_shape (env : Env) (p : Participation) (pu cu : User) (t : Trip)
    (tmpl ta tr : String) (ht : env.transporter = true)
    (hU : env.usersSelectById p.id_user = Except.ok (some pu))
    (hT : env.tripsById p.id_trip = Except.ok (some t))
    (hC : env.usersSelectById t.id_creator = Except.ok (some cu))
    (hTmpl : env.loadTemplate "pendingRequest.html" = Except.ok tmpl)
    (hTa : env.sign (.participationAction p.id_participation "accepted")
        env.secretKey "7d" = Except.ok ta)
    (hTr : env.sign (.participationAction p.id_participation "rejected")
        env.secretKey "7d" = Except.ok tr) :
    sendPendingRequestEmail env p =
      (⟨[pendingRequestMail env p pu cu t tmpl ta tr], pendingSigns p⟩,
       match env.sendMail (pendingRequestMail env p pu cu t tmpl ta tr) with
       | .error e => Except.error e
       | .ok r => Except.ok (some r)) := by
  rw [sendPendingRequestEmail_eq_body env p ht]
  simp only [sendPendingRequestEmailBody, hU, hT, hC, hTmpl, hTa, hTr]

theorem tripUpdate_shape (env : Env) (ps : List Participant) (oT nT : Trip)
    (c : String) (tmpl : String) (ht : env.transporter = true) (hne : ps ≠ [])
    (hl : env.loadTemplate "datesModified.html" = Except.ok tmpl)
    (hf : ps.filter (fun p => p.email != c) ≠ []) :
    sendTripUpdateNotification env ps oT nT c =
      (⟨(ps.filter fun p => p.email != c).map (tripUpdateMail env oT nT tmpl), []⟩,
       Except.ok (some
         (((((ps.filter fun p => p.email != c).map
              (tripUpdateMail env oT nT tmpl)).map env.sendMail).filter isFulfilled).length,
          ((((ps.filter fun p => p.email != c).map
              (tripUpdateMail env oT nT tmpl)).map env.sendMail).filter
                fun r => !(isFulfilled r)).length,
          (((ps.filter fun p => p.email != c).map
              (tripUpdateMail env oT nT tmpl)).map env.sendMail).length))) := by
  have hguard : ¬ (env.transporter = false ∨ ps.length = 0) := by
    rintro (h | h)
    · rw [ht] at h; exact absurd h (by decide)
    · exact hne (List.length_eq_zero.mp h)
  have hflen : ¬ ((ps.filter fun p => p.email != c).length = 0) :=
    fun h => hf (List.length_eq_zero.mp h)
  simp only [sendTripUpdateNotification, if_neg hguard,
    sendTripUpdateNotificationBody, hl, if_neg hflen]

/-! ### Claim theorems -/

/-- Claim C1 (amended): for every call of `sendTripUpdateNotification` in
which the transporter is available, the participant list is nonempty,
template loading succeeds and at least one participant's email differs
from `creatorEmail`, one dispatch is submitted per such participant and
the function returns `some (sent, failed, total)` where `sent` counts
the dispatches that settled fulfilled, `failed` those that settled
rejected, and `total` is the number of filtered recipients.  (When every
participant's email equals `creatorEmail` the code instead returns early
with no dispatch and no tally object — see the counterexample.) -/
theorem sendTripUpdateNotification_batch_result (env : Env) (ps : List Participant)
    (oT nT : Trip) (c : String) (tmpl : String)
    (ht : env.transporter = true) (hne : ps ≠ [])
    (hl : env.loadTemplate "datesModified.html" = Except.ok tmpl)
    (hf : ps.filter (fun p => p.email != c) ≠ []) :
    ((sendTripUpdateNotification env ps oT nT c).1.mails.map Mail.toAddr
        = (ps.filter fun p => p.email != c).map Participant.email)
    ∧ (sendTripUpdateNotification env ps oT nT c).2 =
        Except.ok (some
          ((((sendTripUpdateNotification env ps oT nT c).1.mails.map env.sendMail).filter
              isFulfilled).length,
           (((sendTripUpdateNotification env ps oT nT c).1.mails.map env.sendMail).filter
              fun r => !(isFulfilled r)).length,
           (ps.filter fun p => p.email != c).length)) := by
  rw [tripUpdate_shape env ps oT nT c tmpl ht hne hl hf]
  constructor
  · simp only [List.map_map]
    rfl
  · simp only [List.length_map]

/-- Witness for C1: with participants `[creator, A, B]` and
`creatorEmail` the creator's address, exactly the mails to A and B are
submitted and the tally is `(2, 0, 2)`; when the dispatch to B is
rejected by the provider, the tally is `(1, 1, 2)` and no error is
raised. -/
theorem sendTripUpdateNotification_batch_result_witness :
    (sendTripUpdateNotification envA [crP, aP, bP] oldT newT "c@x.com").2
        = Except.ok (some (2, 0, 2))
    ∧ (sendTripUpdateNotification envB [aP, bP] oldT newT "c@x.com").2
        = Except.ok (some (1, 1, 2)) := by
  constructor
  · exact (sendTripUpdateNotification_batch_result envA [crP, aP, bP] oldT newT "c@x.com"
      "Hola \x7b\x7bparticipantName\x7d\x7d \x7b\x7bverificationLink\x7d\x7d \x7b\x7buserMessage\x7d\x7d"
      rfl (by decide) rfl (by decide)).2.trans rfl
  · exact (sendTripUpdateNotification_batch_result envB [aP, bP] oldT newT "c@x.com"
      "Hola \x7b\x7bparticipantName\x7d\x7d \x7b\x7bverificationLink\x7d\x7d \x7b\x7buserMessage\x7d\x7d"
      rfl (by decide) rfl (by decide)).2.trans rfl

/-- Counterexample for C1 as stated: with the single participant being
the creator, template loading succeeds, yet the function returns `none`
(JavaScript `undefined`) instead of the tally object `{sent: 0,
failed: 0, total: 0}` the claim promises. -/
theorem sendTripUpdateNotification_allFiltered_cex :
    envA.transporter = true
    ∧ envA.loadTemplate "datesModified.html"
        = Except.ok "Hola \x7b\x7bparticipantName\x7d\x7d \x7b\x7bverificationLink\x7d\x7d \x7b\x7buserMessage\x7d\x7d"
    ∧ sendTripUpdateNotification envA [crP] oldT newT "c@x.com" = (emptyLog, Except.ok none)
    ∧ (Except.ok none : Except Err (Option (Nat × Nat × Nat))) ≠ Except.ok (some (0, 0, 0)) := by
  refine ⟨rfl, rfl, rfl, by simp⟩

/-- Claim C2: when the transporter failed to initialise, all three
notification functions are no-ops: no dispatch is submitted and no error
is raised. -/
theorem transporter_unavailable_noop (env : Env) (u : User) (ps : List Participant)
    (oT nT : Trip) (c : String) (p : Participation) (h : env.transporter = false) :
    sendVerifyEmailTo env u = (emptyLog, Except.ok ())
    ∧ sendTripUpdateNotification env ps oT nT c = (emptyLog, Except.ok none)
    ∧ sendPendingRequestEmail env p = (emptyLog, Except.ok none) := by
  refine ⟨?_, ?_, ?_⟩
  · simp [sendVerifyEmailTo, h]
  · simp [sendTripUpdateNotification, h]
  · simp [sendPendingRequestEmail, h]

/-- Witness for C2 at a concrete unconfigured environment. -/
theorem transporter_unavailable_noop_witness :
    sendVerifyEmailTo envOff uA = (emptyLog, Except.ok ())
    ∧ sendTripUpdateNotification envOff [aP] oldT newT "c@x.com" = (emptyLog, Except.ok none)
    ∧ sendPendingRequestEmail envOff pReq = (emptyLog, Except.ok none) :=
  transporter_unavailable_noop envOff uA [aP] oldT newT "c@x.com" pReq rfl

/-- Claim C3 (amended): the renderer applies its replacements
sequentially in mapping order; each step replaces every occurrence of
its token in the text produced by the previous steps — the text splits
into token-free segments, and the step rejoins them inserting at each
match JavaScript's expansion of the value (`$$` a dollar, `$&` the
token, a dollar-backquote or dollar-apostrophe pair the text
before/after the match; a value free of dollar signs is inserted
verbatim) — while a text without the token is left untouched.  Because
the steps are sequential, a value containing a later key's token has
that token replaced as well, and because of the dollar patterns the
inserted text need not be the value itself: both readings of the
original claim fail, see the counterexample. -/
theorem renderChain_sequential_spec :
    (∀ (tmpl k v : String) (m : List (String × String)),
        renderChain tmpl ((k, v) :: m) = renderChain (replaceAllS (tokenOf k) v tmpl) m)
    ∧ (∀ tok val s : List Char, tok ≠ [] →
        joinSep tok (splitTok tok s) = s
        ∧ replaceAllL tok val s = joinExpand tok val [] (splitTok tok s)
        ∧ ∀ seg ∈ splitTok tok s, containsTok tok seg = false)
    ∧ (∀ tok val s : List Char, containsTok tok s = false → replaceAllL tok val s = s)
    ∧ (∀ tok val s : List Char, noDollar val = true →
        replaceAllL tok val s = joinSep val (splitTok tok s)) := by
  refine ⟨fun tmpl k v m => rfl, ?_, ?_, ?_⟩
  · intro tok val s hne
    exact ⟨splitTok_join tok s, replaceAllL_eq_joinExpand tok val s,
      splitTok_contains_false hne s⟩
  · intro tok val s h
    exact replaceAllL_of_not_contains tok val s h
  · intro tok val s h
    exact replaceAllL_of_noDollar tok val s h

/-- Witness for C3 at concrete templates, tokens and values (a dollar
value for the expansion conjunct, dollar-free values for the verbatim
one). -/
theorem renderChain_sequential_spec_witness :
    (renderChain "a\x7b\x7bk\x7d\x7db" [("k", "V")]
        = renderChain (replaceAllS (tokenOf "k") "V" "a\x7b\x7bk\x7d\x7db") [])
    ∧ (joinSep ("\x7b\x7bk\x7d\x7d").data (splitTok ("\x7b\x7bk\x7d\x7d").data ("a\x7b\x7bk\x7d\x7db").data)
        = ("a\x7b\x7bk\x7d\x7db").data)
    ∧ (replaceAllL ("\x7b\x7bk\x7d\x7d").data ("$$").data ("a\x7b\x7bk\x7d\x7db").data
        = joinExpand ("\x7b\x7bk\x7d\x7d").data ("$$").data []
            (splitTok ("\x7b\x7bk\x7d\x7d").data ("a\x7b\x7bk\x7d\x7db").data))
    ∧ (replaceAllL ("\x7b\x7bz\x7d\x7d").data ("V").data ("plain").data = ("plain").data)
    ∧ (replaceAllL ("\x7b\x7bk\x7d\x7d").data ("V").data ("a\x7b\x7bk\x7d\x7db").data
        = joinSep ("V").data (splitTok ("\x7b\x7bk\x7d\x7d").data ("a\x7b\x7bk\x7d\x7db").data)) := by
  refine ⟨renderChain_sequential_spec.1 "a\x7b\x7bk\x7d\x7db" "k" "V" [],
    (renderChain_sequential_spec.2.1 ("\x7b\x7bk\x7d\x7d").data ("V").data
      ("a\x7b\x7bk\x7d\x7db").data (by decide)).1,
    (renderChain_sequential_spec.2.1 ("\x7b\x7bk\x7d\x7d").data ("$$").data
      ("a\x7b\x7bk\x7d\x7db").data (by decide)).2.1,
    renderChain_sequential_spec.2.2.1 ("\x7b\x7bz\x7d\x7d").data ("V").data
      ("plain").data (by decide),
    renderChain_sequential_spec.2.2.2 ("\x7b\x7bk\x7d\x7d").data ("V").data
      ("a\x7b\x7bk\x7d\x7db").data (by decide)⟩

/-- Counterexample for C3 as stated, on both counts: rendering `\x7b\x7ba\x7d\x7d`
with the mapping `a ↦ \x7b\x7bb\x7d\x7d, b ↦ X` yields `X`, not the value `\x7b\x7bb\x7d\x7d`
of `a` as the simultaneous reading promises (the token introduced by the
first replacement is consumed by the second); and rendering `\x7b\x7bm\x7d\x7d`
with the value `$$` for `m` yields the JavaScript dollar expansion `$`,
not the value `$$` itself. -/
theorem renderChain_simultaneous_cex :
    (renderChain "\x7b\x7ba\x7d\x7d" [("a", "\x7b\x7bb\x7d\x7d"), ("b", "X")] = "X"
      ∧ ("X" : String) ≠ "\x7b\x7bb\x7d\x7d")
    ∧ (renderChain "\x7b\x7bm\x7d\x7d" [("m", "$$")] = "$"
      ∧ ("$" : String) ≠ "$$") :=
  ⟨⟨by decide, by decide⟩, ⟨by decide, by decide⟩⟩

/-- Claim C4: `sendVerifyEmailTo` never raises: for every environment
(template load failure, signing failure, dispatch failure, transporter
unavailable included) it returns normally. -/
theorem sendVerifyEmailTo_never_raises (env : Env) (u : User) :
    (sendVerifyEmailTo env u).2 = Except.ok () :=
  sendVerifyEmailTo_snd_ok env u

/-- Claim C5: error propagation is asymmetric: `sendVerifyEmailTo` and
`sendTripUpdateNotification` never surface an error to their caller,
whereas `sendPendingRequestEmail` re-raises any error its body throws. -/
theorem error_propagation_asymmetry :
    (∀ (env : Env) (u : User) (e : Err),
        (sendVerifyEmailTo env u).2 ≠ Except.error e)
    ∧ (∀ (env : Env) (ps : List Participant) (oT nT : Trip) (c : String) (e : Err),
        (sendTripUpdateNotification env ps oT nT c).2 ≠ Except.error e)
    ∧ (∀ (env : Env) (p : Participation) (log : CallLog) (e : Err),
        env.transporter = true →
        sendPendingRequestEmailBody env p = (log, Except.error e) →
        sendPendingRequestEmail env p = (log, Except.error e)) := by
  refine ⟨?_, ?_, ?_⟩
  · intro env u e
    rw [sendVerifyEmailTo_snd_ok env u]
    simp
  · intro env ps oT nT c e
    exact sendTripUpdateNotification_snd_ok env ps oT nT c e
  · intro env p log e ht hb
    rw [sendPendingRequestEmail_eq_body env p ht, hb]

/-- Witness for C5: concrete instances of all three conjuncts; in the
third, a failing template read makes `sendPendingRequestEmail` raise the
very error its body threw. -/
theorem error_propagation_asymmetry_witness :
    (sendVerifyEmailTo envA uA).2 ≠ Except.error ⟨"boom"⟩
    ∧ (sendTripUpdateNotification envA [aP] oldT newT "c@x.com").2 ≠ Except.error ⟨"boom"⟩
    ∧ sendPendingRequestEmail envErr pReq = (emptyLog, Except.error ⟨"ENOENT"⟩) :=
  ⟨error_propagation_asymmetry.1 envA uA ⟨"boom"⟩,
   error_propagation_asymmetry.2.1 envA [aP] oldT newT "c@x.com" ⟨"boom"⟩,
   error_propagation_asymmetry.2.2 envErr pReq emptyLog ⟨"ENOENT"⟩ rfl rfl⟩

/-- Claim C6: when the requesting user, the trip, or the trip's creator
resolves to no record, `sendPendingRequestEmail` aborts as a no-op:
zero dispatches and no error. -/
theorem sendPendingRequestEmail_missing_entity_noop (env : Env) (p : Participation)
    (ht : env.transporter = true) :
    (∀ tOpt : Option Trip, env.usersSelectById p.id_user = Except.ok none →
        env.tripsById p.id_trip = Except.ok tOpt →
        sendPendingRequestEmail env p = (emptyLog, Except.ok none))
    ∧ (∀ uOpt : Option User, env.usersSelectById p.id_user = Except.ok uOpt →
        env.tripsById p.id_trip = Except.ok none →
        sendPendingRequestEmail env p = (emptyLog, Except.ok none))
    ∧ (∀ (u : User) (t : Trip), env.usersSelectById p.id_user = Except.ok (some u) →
        env.tripsById p.id_trip = Except.ok (some t) →
        env.usersSelectById t.id_creator = Except.ok none →
        sendPendingRequestEmail env p = (emptyLog, Except.ok none)) := by
  refine ⟨?_, ?_, ?_⟩
  · intro tOpt h1 h2
    rw [sendPendingRequestEmail_eq_body env p ht]
    simp only [sendPendingRequestEmailBody, h1, h2]
  · intro uOpt h1 h2
    rw [sendPendingRequestEmail_eq_body env p ht]
    cases uOpt <;> simp only [sendPendingRequestEmailBody, h1, h2]
  · intro u t h1 h2 h3
    rw [sendPendingRequestEmail_eq_body env p ht]
    simp only [sendPendingRequestEmailBody, h1, h2, h3]

/-- Witness for C6: concrete environments where the user, the trip, or
the creator is missing. -/
theorem sendPendingRequestEmail_missing_entity_noop_witness :
    sendPendingRequestEmail envNoUser pReq = (emptyLog, Except.ok none)
    ∧ sendPendingRequestEmail envNoTrip pReq = (emptyLog, Except.ok none)
    ∧ sendPendingRequestEmail envNoCreator pReq = (emptyLog, Except.ok none) :=
  ⟨(sendPendingRequestEmail_missing_entity_noop envNoUser pReq rfl).1
      (some ⟨1, "Trip", "2025-01-01", "2025-01-02", 7⟩) rfl rfl,
   (sendPendingRequestEmail_missing_entity_noop envNoTrip pReq rfl).2.1
      (some ⟨3, "User3", "u3@x.com"⟩) rfl rfl,
   (sendPendingRequestEmail_missing_entity_noop envNoCreator pReq rfl).2.2
      ⟨3, "User3", "u3@x.com"⟩ ⟨1, "Trip", "2025-01-01", "2025-01-02", 7⟩ rfl rfl rfl⟩

/-- Claim C7: `sendVerifyEmailTo` signs exactly one 1-day token carrying
the user's id and mails the user the link
`{apiBaseUrl}/api/auth/verify?token=...`; `sendPendingRequestEmail`
signs exactly two 7-day tokens carrying the participation id with
actions `accepted` and `rejected`, and sends one mail to the creator
whose body is the template rendered with both
`{apiBaseUrl}/api/participants/{id}/action?token=...` links. -/
theorem token_links_shape :
    (∀ (env : Env) (u : User) (tmpl tok : String),
        env.transporter = true →
        env.loadTemplate "verify.html" = Except.ok tmpl →
        env.sign (.userId u.id_user) env.secretKey "1d" = Except.ok tok →
        (sendVerifyEmailTo env u).1.signs = [(JwtPayload.userId u.id_user, "1d")]
        ∧ (sendVerifyEmailTo env u).1.mails.map Mail.toAddr = [u.email]
        ∧ (sendVerifyEmailTo env u).1.mails.map Mail.html =
            [replaceAllS (tokenOf "verificationLink")
              ((env.apiBaseUrl.getD "http://localhost:3000")
                ++ "/api/auth/verify?token=" ++ tok) tmpl])
    ∧ (∀ (env : Env) (p : Participation) (pu cu : User) (t : Trip) (tmpl ta tr : String),
        env.transporter = true →
        env.usersSelectById p.id_user = Except.ok (some pu) →
        env.tripsById p.id_trip = Except.ok (some t) →
        env.usersSelectById t.id_creator = Except.ok (some cu) →
        env.loadTemplate "pendingRequest.html" = Except.ok tmpl →
        env.sign (.participationAction p.id_participation "accepted")
            env.secretKey "7d" = Except.ok ta →
        env.sign (.participationAction p.id_participation "rejected")
            env.secretKey "7d" = Except.ok tr →
        (sendPendingRequestEmail env p).1.signs =
            [(JwtPayload.participationAction p.id_participation "accepted", "7d"),
             (JwtPayload.participationAction p.id_participation "rejected", "7d")]
        ∧ (sendPendingRequestEmail env p).1.mails.map Mail.toAddr = [cu.email]
        ∧ (sendPendingRequestEmail env p).1.mails.map Mail.html =
            [renderChain tmpl
              [("creatorName", cu.name), ("userName", pu.name), ("tripTitle", t.title),
               ("startDate", env.formatDate t.start_date),
               ("endDate", env.formatDate t.end_date),
               ("userMessage", strOrElse p.message "Sin mensaje"),
               ("appUrl", (env.frontendUrl.getD "http://localhost:3000") ++ "/requests"),
               ("accepted", (env.apiBaseUrl.getD "http://localhost:3000")
                  ++ "/api/participants/" ++ toString p.id_participation
                  ++ "/action?token=" ++ ta),
               ("rejected", (env.apiBaseUrl.getD "http://localhost:3000")
                  ++ "/api/participants/" ++ toString p.id_participation
                  ++ "/action?token=" ++ tr)]]) := by
  constructor
  · intro env u tmpl tok ht hl hs
    rw [sendVerifyEmailTo_log env u ht]
    simp [sendVerifyEmailToBody, verifyMail, hl, hs]
  · intro env p pu cu t tmpl ta tr ht hU hT hC hTmpl hTa hTr
    rw [pending_shape env p pu cu t tmpl ta tr ht hU hT hC hTmpl hTa hTr]
    exact ⟨rfl, rfl, rfl⟩

/-- Witness for C7 at the concrete fixtures. -/
theorem token_links_shape_witness :
    (sendVerifyEmailTo envA uA).1.signs = [(JwtPayload.userId 3, "1d")]
    ∧ (sendVerifyEmailTo envA uA).1.mails.map Mail.html =
        ["Hola \x7b\x7bparticipantName\x7d\x7d http://localhost:3000/api/auth/verify?token=TOK \x7b\x7buserMessage\x7d\x7d"]
    ∧ (sendPendingRequestEmail envA pReq).1.signs =
        [(JwtPayload.participationAction 11 "accepted", "7d"),
         (JwtPayload.participationAction 11 "rejected", "7d")]
    ∧ (sendPendingRequestEmail envA pReq).1.mails.map Mail.toAddr = ["u7@x.com"] := by
  have hv := token_links_shape.1 envA uA
    "Hola \x7b\x7bparticipantName\x7d\x7d \x7b\x7bverificationLink\x7d\x7d \x7b\x7buserMessage\x7d\x7d" "TOK"
    rfl rfl rfl
  have hp := token_links_shape.2 envA pReq ⟨3, "User3", "u3@x.com"⟩ ⟨7, "User7", "u7@x.com"⟩
    ⟨1, "Trip", "2025-01-01", "2025-01-02", 7⟩
    "Hola \x7b\x7bparticipantName\x7d\x7d \x7b\x7bverificationLink\x7d\x7d \x7b\x7buserMessage\x7d\x7d"
    "TOK" "TOK" rfl rfl rfl rfl rfl rfl rfl
  exact ⟨hv.1.trans (by decide), hv.2.2.trans (by decide),
    hp.1.trans (by decide), hp.2.1.trans (by decide)⟩

/-- Claim C8: when the participation request's free-text message is
absent or empty, `sendPendingRequestEmail` renders the `userMessage`
placeholder with the documented fallback `Sin mensaje` instead of
failing. -/
theorem pending_message_fallback (env : Env) (p : Participation) (pu cu : User) (t : Trip)
    (tmpl ta tr : String) (ht : env.transporter = true)
    (hU : env.usersSelectById p.id_user = Except.ok (some pu))
    (hT : env.tripsById p.id_trip = Except.ok (some t))
    (hC : env.usersSelectById t.id_creator = Except.ok (some cu))
    (hTmpl : env.loadTemplate "pendingRequest.html" = Except.ok tmpl)
    (hTa : env.sign (.participationAction p.id_participation "accepted")
        env.secretKey "7d" = Except.ok ta)
    (hTr : env.sign (.participationAction p.id_participation "rejected")
        env.secretKey "7d" = Except.ok tr)
    (hmsg : p.message = none ∨ p.message = some "") :
    (sendPendingRequestEmail env p).1.mails.map Mail.html =
        [renderChain tmpl
          [("creatorName", cu.name), ("userName", pu.name), ("tripTitle", t.title),
           ("startDate", env.formatDate t.start_date),
           ("endDate", env.formatDate t.end_date),
           ("userMessage", "Sin mensaje"),
           ("appUrl", (env.frontendUrl.getD "http://localhost:3000") ++ "/requests"),
           ("accepted", (env.apiBaseUrl.getD "http://localhost:3000")
              ++ "/api/participants/" ++ toString p.id_participation
              ++ "/action?token=" ++ ta),
           ("rejected", (env.apiBaseUrl.getD "http://localhost:3000")
              ++ "/api/participants/" ++ toString p.id_participation
              ++ "/action?token=" ++ tr)]] := by
  have hm : strOrElse p.message "Sin mensaje" = "Sin mensaje" := by
    rcases hmsg with h | h <;> simp [strOrElse, h]
  rw [pending_shape env p pu cu t tmpl ta tr ht hU hT hC hTmpl hTa hTr]
  simp only [pendingRequestMail, hm]
  rfl

/-- Witness for C8: the fixture request has no message and the rendered
mail carries the literal fallback. -/
theorem pending_message_fallback_witness :
    (sendPendingRequestEmail envA pReq).1.mails.map Mail.html =
        ["Hola \x7b\x7bparticipantName\x7d\x7d \x7b\x7bverificationLink\x7d\x7d Sin mensaje"] :=
  (pending_message_fallback envA pReq ⟨3, "User3", "u3@x.com"⟩ ⟨7, "User7", "u7@x.com"⟩
    ⟨1, "Trip", "2025-01-01", "2025-01-02", 7⟩
    "Hola \x7b\x7bparticipantName\x7d\x7d \x7b\x7bverificationLink\x7d\x7d \x7b\x7buserMessage\x7d\x7d"
    "TOK" "TOK" rfl rfl rfl rfl rfl rfl rfl (Or.inl rfl)).trans (by decide)

/-- Claim C9: with an empty participant list,
`sendTripUpdateNotification` returns early: no dispatch, no error. -/
theorem sendTripUpdateNotification_empty_participants (env : Env) (oT nT : Trip)
    (c : String) :
    sendTripUpdateNotification env [] oT nT c = (emptyLog, Except.ok none) := by
  simp [sendTripUpdateNotification]

/-- Claim C10: a participant is excluded from notification exactly when
the participant's email is character-for-character equal to
`creatorEmail`; any other address — case or whitespace differences
included — is dispatched to, and `creatorEmail` itself never is. -/
theorem creator_exclusion_exact_match (env : Env) (ps : List Participant) (oT nT : Trip)
    (c : String) (tmpl : String) (ht : env.transporter = true) (hne : ps ≠ [])
    (hl : env.loadTemplate "datesModified.html" = Except.ok tmpl)
    (hf : ps.filter (fun p => p.email != c) ≠ []) :
    ((sendTripUpdateNotification env ps oT nT c).1.mails.map Mail.toAddr
        = (ps.filter fun p => p.email != c).map Participant.email)
    ∧ (∀ p ∈ ps, p.email ≠ c →
        p.email ∈ (sendTripUpdateNotification env ps oT nT c).1.mails.map Mail.toAddr)
    ∧ c ∉ (sendTripUpdateNotification env ps oT nT c).1.mails.map Mail.toAddr := by
  have h1 : (sendTripUpdateNotification env ps oT nT c).1.mails.map Mail.toAddr
      = (ps.filter fun p => p.email != c).map Participant.email := by
    rw [tripUpdate_shape env ps oT nT c tmpl ht hne hl hf]
    simp only [List.map_map]
    rfl
  refine ⟨h1, ?_, ?_⟩
  · intro p hp hpe
    rw [h1]
    exact List.mem_map.mpr ⟨p, List.mem_filter.mpr ⟨hp, by simpa [bne_iff_ne] using hpe⟩, rfl⟩
  · rw [h1]
    intro hmem
    obtain ⟨q, hq, hqe⟩ := List.mem_map.mp hmem
    exact absurd hqe (by simpa [bne_iff_ne] using (List.mem_filter.mp hq).2)

/-- Witness for C10: addresses differing from the creator's only in
letter case or in surrounding whitespace are still notified; the
creator's exact address is not. -/
theorem creator_exclusion_exact_match_witness :
    (sendTripUpdateNotification envA
        [⟨"Ann", "A@x.com"⟩, ⟨"Cre", "c@x.com"⟩, ⟨"Pad", " c@x.com"⟩]
        oldT newT "c@x.com").1.mails.map Mail.toAddr = ["A@x.com", " c@x.com"]
    ∧ "c@x.com" ∉ (sendTripUpdateNotification envA
        [⟨"Ann", "A@x.com"⟩, ⟨"Cre", "c@x.com"⟩, ⟨"Pad", " c@x.com"⟩]
        oldT newT "c@x.com").1.mails.map Mail.toAddr := by
  have h := creator_exclusion_exact_match envA
    [⟨"Ann", "A@x.com"⟩, ⟨"Cre", "c@x.com"⟩, ⟨"Pad", " c@x.com"⟩] oldT newT "c@x.com"
    "Hola \x7b\x7bparticipantName\x7d\x7d \x7b\x7bverificationLink\x7d\x7d \x7b\x7buserMessage\x7d\x7d"
    rfl (by decide) rfl (by decide)
  exact ⟨h.1.trans (by decide), h.2.2⟩

end EmailService
